import Mathlib

/-!
Verification of the per-conversation run scheduler and streaming-reply
reconciler of the openclaw repository.

Text is modelled as `List Char` (JS strings).  The main sources embedded
here are:
  * `src/agents/pi-embedded-subscribe.ts` — the streaming reply reconciler
    (`subscribeEmbeddedPiSession`), embedded as a state machine `SubState`
    with a transition function `step`;
  * `src/agents/pi-embedded-runner.ts` — the run registry
    (`queueEmbeddedPiMessage`, `waitForEmbeddedPiRunEnd`,
    `notifyEmbeddedRunEnded`) and the profile-rotation tail of
    `runEmbeddedPiAgent`;
  * `src/auto-reply/reply.ts` — the interrupt branch of the reply queue
    policy engine.

Definitions are translated from the TypeScript source; the few helpers
whose source is not part of the repository snapshot (`isMessagingToolDuplicate`
from `pi-embedded-helpers.ts`, the command-queue lane from
`process/command-queue.ts`) are modelled from the specification and marked
as such in their doc comments.
-/

namespace OpenClaw

/-- Whitespace predicate modelling the characters matched by `\s` in the
JavaScript regexes of `pi-embedded-subscribe.ts` (restricted to the ASCII
whitespace characters; the Unicode extras of `\s` are not used by any
input considered here). Also used for `String.prototype.trim`. -/
def isJsWs (c : Char) : Bool :=
  c = ' ' || c = '\t' || c = '\n' || c = '\r' || c = Char.ofNat 11 || c = Char.ofNat 12

/-- Model of JavaScript `s.trimStart()`. -/
def jsTrimStartL (l : List Char) : List Char := l.dropWhile isJsWs

/-- Model of JavaScript `s.trimEnd()`. -/
def jsTrimEndL (l : List Char) : List Char := (l.reverse.dropWhile isJsWs).reverse

/-- Model of JavaScript `s.trim()`. -/
def jsTrimL (l : List Char) : List Char := jsTrimEndL (jsTrimStartL l)

/-- Model of JavaScript `l.startsWith(p)` on strings-as-char-lists. -/
def startsWithL (l p : List Char) : Bool := decide (l.take p.length = p)

/-- Model of JavaScript `l.includes(p)` (substring containment). -/
def includesL (l p : List Char) : Bool :=
  (List.range (l.length + 1)).any (fun i => decide ((l.drop i).take p.length = p))

/-- Kinds of assistant text streaming events handled by the `message_update`
branch of `subscribeEmbeddedPiSession` (`text_delta`, `text_start`,
`text_end`). -/
inductive TextEvtKind
  | textDelta
  | textStart
  | textEnd
  deriving DecidableEq, Repr

/-- Chunk resolution of `subscribeEmbeddedPiSession`
(`pi-embedded-subscribe.ts` lines 823-849): for `text_delta` the raw delta
is the chunk; for `text_start`/`text_end`, a nonempty raw delta wins,
otherwise the cumulative `content` is compared against the accumulated
`deltaBuffer`: if `content` extends the buffer only the suffix is appended,
if the buffer starts with `content` the chunk is empty, if the buffer does
not contain `content` at all the whole `content` is the chunk, and in the
remaining case (content an internal substring of the buffer) the chunk
stays empty. -/
def resolveChunk (k : TextEvtKind) (delta content buf : List Char) : List Char :=
  match k with
  | .textDelta => delta
  | _ =>
    if delta ≠ [] then delta
    else if content ≠ [] then
      if startsWithL content buf then content.drop buf.length
      else if startsWithL buf content then []
      else if !(includesL buf content) then content
      else []
    else []

/-- Case-insensitive match of the lowercase pattern `p` at the head of `l`
(models the `i` flag of the thinking-tag regexes). -/
def startsWithCI (l p : List Char) : Bool := decide ((l.take p.length).map Char.toLower = p)

/-- Number of leading JS-whitespace characters (models a leading `\s*`). -/
def wsCount : List Char → Nat
  | [] => 0
  | c :: r => if isJsWs c then wsCount r + 1 else 0

/-- Matcher for the thinking-tag regex `<\s*(\/?)\s*think(?:ing)?\s*>`
(`THINKING_TAG_RE` / `THINKING_TAG_SCAN_RE` in `pi-embedded-subscribe.ts`)
at a position whose `<` has already been consumed: `r0` is the text after
the `<`.  On a match it returns whether the tag is a closing tag (the
captured `/`) together with the number of characters consumed after the
`<`.  The `(?:ing)?` backtracking of the regex engine is reproduced: a
matched `ing` is given up again when no `\s*>` follows it. -/
def thinkTagSuffix (r0 : List Char) : Option (Bool × Nat) :=
  let w1 := wsCount r0
  let r1 := r0.drop w1
  let isClose : Bool := r1.head? = some '/'
  let slash := if isClose then 1 else 0
  let r2 := r1.drop slash
  let w2 := wsCount r2
  let r3 := r2.drop w2
  if startsWithCI r3 ['t', 'h', 'i', 'n', 'k'] then
    let r4 := r3.drop 5
    let tailAt : List Char → Option Nat := fun rr =>
      let w := wsCount rr
      if (rr.drop w).head? = some '>' then some (w + 1) else none
    let rest :=
      if startsWithCI r4 ['i', 'n', 'g'] then
        match tailAt (r4.drop 3) with
        | some k => some (3 + k)
        | none => tailAt r4
      else tailAt r4
    match rest with
    | some k => some (isClose, w1 + slash + w2 + 5 + k)
    | none => none
  else none

/-- Core scanner shared by `stripThinkingSegments` (lines 95-114) and the
stateful `stripBlockThinkingSegments` closure (lines 486-507) of
`pi-embedded-subscribe.ts`: walk the text left to right exactly like
`matchAll` on the thinking-tag regex; text between tags is kept only while
not inside a thinking segment, an opening tag sets the inside-flag, a
closing tag clears it, and the text after the last tag is kept only if the
flag ended up cleared.  Returns the visible text and the final flag. -/
def stripScanAux : Bool → Nat → List Char → List Char × Bool
  | inThinking, _, [] => ([], inThinking)
  | inThinking, skip + 1, _ :: rest => stripScanAux inThinking skip rest
  | inThinking, 0, c :: rest =>
    if c = '<' then
      match thinkTagSuffix rest with
      | some (isClose, n) => stripScanAux (!isClose) n rest
      | none =>
        let p := stripScanAux inThinking 0 rest
        (if inThinking then p.1 else c :: p.1, p.2)
    else
      let p := stripScanAux inThinking 0 rest
      (if inThinking then p.1 else c :: p.1, p.2)

/-- The scanner entry point: no characters pending to be skipped. -/
def stripScan (inThinking : Bool) (l : List Char) : List Char × Bool :=
  stripScanAux inThinking 0 l

/-- Model of `stripThinkingSegments` of `pi-embedded-subscribe.ts` (lines 95-114):
stateless strip of matched thinking segments from a cumulative text (its
early return when no tag occurs coincides with the scan, which then keeps
every character). -/
def stripThinkingSegmentsL (text : List Char) : List Char := (stripScan false text).1

/-- Model of `stripBlockThinkingSegments` of `pi-embedded-subscribe.ts`
(lines 486-507): the same scan but seeded with, and updating, the
`blockThinkingActive` flag that persists across block chunks. -/
def stripBlockThinkingSegmentsL (flag : Bool) (text : List Char) : List Char × Bool :=
  stripScan flag text

/-- Association-list lookup keyed by `List Char` (models `Map.get`). -/
def assocGet (l : List (List Char × List Char)) (k : List Char) : Option (List Char) :=
  match l.find? (fun p => decide (p.1 = k)) with
  | some p => some p.2
  | none => none

/-- Association-list update keyed by `List Char` (models `Map.set`). -/
def assocSet (l : List (List Char × List Char)) (k v : List Char) :
    List (List Char × List Char) :=
  l.filter (fun p => decide (p.1 ≠ k)) ++ [(k, v)]

/-- Association-list removal keyed by `List Char` (models `Map.delete`). -/
def assocRemove (l : List (List Char × List Char)) (k : List Char) :
    List (List Char × List Char) :=
  l.filter (fun p => decide (p.1 ≠ k))

/-- The `MESSAGING_TOOLS` set of `subscribeEmbeddedPiSession`. -/
def MESSAGING_TOOLS : List (List Char) :=
  ["telegram".data, "whatsapp".data, "discord".data, "slack".data, "sessions_send".data]

/-- Modelled from the spec: `isMessagingToolDuplicate` lives in
`pi-embedded-helpers.ts`, which is not part of the repository snapshot;
per the specification, "Any candidate block reply or final answer exactly
matching a committed tool-sent text is suppressed", so the predicate is
exact membership of the candidate in the committed tool-sent texts. -/
def isMessagingToolDuplicate (t : List Char) (sent : List (List Char)) : Bool :=
  sent.contains t

/-- Configuration of one `subscribeEmbeddedPiSession` subscription, as
modelled here: the reconciler is embedded for the default configuration
with no `blockReplyChunking` (so the plain `blockBuffer` accumulates block
text), reasoning mode `off`, and `enforceFinalTag` disabled (its `ollama`
only `<final>` handling is not exercised by any claim).  `hasOnBlockReply`
records whether an `onBlockReply` callback was supplied, and
`blockBreakTextEnd` whether `blockReplyBreak` resolved to `"text_end"`
(the default) rather than `"message_end"`. -/
structure SubConfig where
  hasOnBlockReply : Bool
  blockBreakTextEnd : Bool
  deriving DecidableEq, Repr

/-- Mutable state of one `subscribeEmbeddedPiSession` subscription
(the closure variables of `pi-embedded-subscribe.ts`), plus two append-only
logs recording the user-visible emissions: `blockReplyLog` records each
text handed to the block-reply path (the argument of the `onBlockReply`
invocation, before the media split) and `assistantStreamLog` each cleaned
cumulative text handed to the partial-reply path. -/
structure SubState where
  deltaBuffer : List Char
  blockBuffer : List Char
  blockThinkingActive : Bool
  lastStreamedAssistant : Option (List Char)
  lastBlockReplyText : Option (List Char)
  assistantTexts : List (List Char)
  assistantTextBaseline : Nat
  toolMetas : List (List Char)
  toolMetaById : List (List Char)
  messagingToolSentTexts : List (List Char)
  pendingMessagingTexts : List (List Char × List Char)
  compactionInFlight : Bool
  pendingCompactionRetry : Nat
  blockReplyLog : List (List Char)
  assistantStreamLog : List (List Char)
  deriving DecidableEq, Repr

/-- Initial subscription state (all buffers empty, no compaction). -/
def initSubState : SubState :=
  { deltaBuffer := []
    blockBuffer := []
    blockThinkingActive := false
    lastStreamedAssistant := none
    lastBlockReplyText := none
    assistantTexts := []
    assistantTextBaseline := 0
    toolMetas := []
    toolMetaById := []
    messagingToolSentTexts := []
    pendingMessagingTexts := []
    compactionInFlight := false
    pendingCompactionRetry := 0
    blockReplyLog := []
    assistantStreamLog := [] }

/-- Events consumed by the subscription handler, restricted to the fields
the handler reads: assistant `message_start`, an assistant text streaming
event inside `message_update`, assistant `message_end` (carrying the
extracted assistant text), `tool_execution_start` / `tool_execution_end`
(with the argument fields relevant for messaging-tool tracking),
`auto_compaction_start` / `auto_compaction_end`, and `agent_end`. -/
inductive SubEvent
  | messageStart
  | textUpdate (k : TextEvtKind) (delta content : List Char)
  | messageEnd (rawText : List Char)
  | toolStart (toolName toolCallId : List Char) (action : Option (List Char))
      (content message : Option (List Char))
  | toolEnd (toolName toolCallId : List Char) (isError : Bool)
  | compactionStart
  | compactionEnd (willRetry : Bool)
  | agentEnd
  deriving Repr

/-- The `emitBlockChunk` closure of `subscribeEmbeddedPiSession`
(lines 509-534): strip thinking segments across chunk boundaries (updating
`blockThinkingActive`), trim the end, drop empty chunks, drop a chunk equal
to the last emitted block reply, drop a chunk already sent by a committed
messaging tool, and otherwise record it in `assistantTexts` and emit it
(the block-reply log entry; the actual callback further splits media). -/
def emitBlockChunk (cfg : SubConfig) (s : SubState) (text : List Char) : SubState :=
  let pr := stripScan s.blockThinkingActive text
  let s1 := { s with blockThinkingActive := pr.2 }
  let chunk := jsTrimEndL pr.1
  if chunk = [] then s1
  else if s1.lastBlockReplyText = some chunk then s1
  else if isMessagingToolDuplicate chunk s1.messagingToolSentTexts then s1
  else
    { s1 with
      lastBlockReplyText := some chunk
      assistantTexts := s1.assistantTexts ++ [chunk]
      blockReplyLog :=
        if cfg.hasOnBlockReply then s1.blockReplyLog ++ [chunk] else s1.blockReplyLog }

/-- Flush of the accumulated `blockBuffer` through `emitBlockChunk`
(the `text_end` and `agent_end` flush sites, lines 897-905 and 1084-1092,
in the no-chunker configuration): a nonempty buffer is emitted and then
cleared. -/
def flushBlockBuffer (cfg : SubConfig) (s : SubState) : SubState :=
  if s.blockBuffer ≠ [] then
    { emitBlockChunk cfg s s.blockBuffer with blockBuffer := [] }
  else s

/-- Model of `resetForCompactionRetry` (lines 587-604): drop every per-message and
per-run accumulation so the retried attempt starts clean. -/
def resetForCompactionRetryS (s : SubState) : SubState :=
  { s with
    assistantTexts := []
    toolMetas := []
    toolMetaById := []
    messagingToolSentTexts := []
    pendingMessagingTexts := []
    deltaBuffer := []
    blockBuffer := []
    blockThinkingActive := false
    lastStreamedAssistant := none
    lastBlockReplyText := none
    assistantTextBaseline := 0 }

/-- Handler of an assistant `message_start` (lines 608-625): reset the
per-message buffers, the dedup anchors and the baseline. -/
def stepMessageStart (s : SubState) : SubState :=
  { s with
    deltaBuffer := []
    blockBuffer := []
    blockThinkingActive := false
    lastStreamedAssistant := none
    lastBlockReplyText := none
    assistantTextBaseline := s.assistantTexts.length }

/-- Buffer growth of the text streaming handler (lines 842-849): a
nonempty resolved chunk is appended to the delta buffer and (no chunker)
the block buffer. -/
def appendChunk (s : SubState) (chunk : List Char) : SubState :=
  if chunk ≠ [] then
    { s with deltaBuffer := s.deltaBuffer ++ chunk, blockBuffer := s.blockBuffer ++ chunk }
  else s

/-- Partial-reply emission of the text streaming handler (lines 856-887):
the cleaned, trimmed cumulative buffer is emitted when nonempty and
different from the last streamed assistant text. -/
def emitPartialReply (s1 : SubState) : SubState :=
  let next := jsTrimL (stripThinkingSegmentsL s1.deltaBuffer)
  if next ≠ [] ∧ s1.lastStreamedAssistant ≠ some next then
    { s1 with
      lastStreamedAssistant := some next
      assistantStreamLog := s1.assistantStreamLog ++ [next] }
  else s1

/-- Handler of an assistant text streaming event inside `message_update`
(lines 787-908, for the no-chunker configuration): resolve the chunk,
append it to the delta and block buffers, emit a deduplicated partial
reply of the cleaned cumulative buffer, and on `text_end` (with break mode
`text_end`) flush the block buffer through `emitBlockChunk`. -/
def stepTextUpdate (cfg : SubConfig) (s : SubState) (k : TextEvtKind)
    (delta content : List Char) : SubState :=
  let s1 := appendChunk s (resolveChunk k delta content s.deltaBuffer)
  let s2 := emitPartialReply s1
  if k = .textEnd ∧ cfg.blockBreakTextEnd then flushBlockBuffer cfg s2
  else s2

/-- Handler of an assistant `message_end` (lines 910-1014, reasoning mode
`off`, no chunker, `enforceFinalTag` disabled): clean the extracted text,
record it in `assistantTexts` when nothing was added during the message,
advance the baseline, possibly emit the final text as a block reply (with
the same dedup checks as `emitBlockChunk`), and reset the per-message
buffers - but not `lastBlockReplyText`. -/
def stepMessageEnd (cfg : SubConfig) (s : SubState) (rawText : List Char) : SubState :=
  let text := stripThinkingSegmentsL rawText
  let addedDuringMessage := decide (s.assistantTextBaseline < s.assistantTexts.length)
  let s1 :=
    if !addedDuringMessage ∧ text ≠ [] ∧ s.assistantTexts.getLast? ≠ some text then
      { s with assistantTexts := s.assistantTexts ++ [text] }
    else s
  let s2 := { s1 with assistantTextBaseline := s1.assistantTexts.length }
  let s3 :=
    if (!cfg.blockBreakTextEnd ∨ s2.blockBuffer ≠ []) ∧ text ≠ [] ∧ cfg.hasOnBlockReply then
      if s2.lastBlockReplyText = some text then s2
      else if isMessagingToolDuplicate text s2.messagingToolSentTexts then s2
      else
        { s2 with
          lastBlockReplyText := some text
          blockReplyLog := s2.blockReplyLog ++ [text] }
    else s2
  { s3 with
    deltaBuffer := []
    blockBuffer := []
    blockThinkingActive := false
    lastStreamedAssistant := none }

/-- Handler of `tool_execution_start` (lines 628-695): track the tool call
id, and for a messaging tool performing a send action remember the
outgoing text as pending (uncommitted) under the tool call id.  The text
is `args.content ?? args.message`, tracked only when a nonempty string. -/
def stepToolStart (s : SubState) (toolName toolCallId : List Char)
    (action : Option (List Char)) (content message : Option (List Char)) : SubState :=
  let s1 := { s with toolMetaById := s.toolMetaById ++ [toolCallId] }
  if MESSAGING_TOOLS.contains toolName ∧
      (action = some "sendMessage".data ∨ action = some "threadReply".data ∨
        toolName = "sessions_send".data) then
    match (match content with | some c => some c | none => message) with
    | some t =>
      if t ≠ [] then
        { s1 with pendingMessagingTexts := assocSet s1.pendingMessagingTexts toolCallId t }
      else s1
    | none => s1
  else s1

/-- Handler of `tool_execution_end` (lines 727-785): record the tool meta,
drop the id tracking, and commit the pending messaging text on success or
discard it on error. -/
def stepToolEnd (s : SubState) (toolName toolCallId : List Char) (isError : Bool) : SubState :=
  let s1 :=
    { s with
      toolMetas := s.toolMetas ++ [toolName]
      toolMetaById := s.toolMetaById.filter (fun i => decide (i ≠ toolCallId)) }
  match assocGet s1.pendingMessagingTexts toolCallId with
  | some t =>
    let s2 := { s1 with
      pendingMessagingTexts := assocRemove s1.pendingMessagingTexts toolCallId }
    if !isError then
      { s2 with messagingToolSentTexts := s2.messagingToolSentTexts ++ [t] }
    else s2
  | none => s1

/-- Compaction bookkeeping of the `agent_end` handler (lines 1094-1098):
with retries pending, `resolveCompactionRetry` decrements the counter and
fires the stored resolver when it reaches zero with no compaction in
flight; otherwise `maybeResolveCompactionWait` fires when no compaction is
in flight.  Returns the new counter and whether the resolver fired. -/
def agentEndGate (pending : Nat) (inFlight : Bool) : Nat × Bool :=
  if 0 < pending then (pending - 1, decide (pending - 1 = 0 ∧ inFlight = false))
  else (pending, !inFlight)

/-- One step of the subscription handler.  The second component models the
compaction-retry gate: it is `true` exactly when this event causes the
pending `waitForCompactionRetry` promise (if any) to be resolved
(`resolveCompactionRetry` / `maybeResolveCompactionWait` firing their
stored resolver). -/
def step (cfg : SubConfig) (s : SubState) (e : SubEvent) : SubState × Bool :=
  match e with
  | .messageStart => (stepMessageStart s, false)
  | .textUpdate k delta content => (stepTextUpdate cfg s k delta content, false)
  | .messageEnd rawText => (stepMessageEnd cfg s rawText, false)
  | .toolStart n i a c m => (stepToolStart s n i a c m, false)
  | .toolEnd n i err => (stepToolEnd s n i err, false)
  | .compactionStart => ({ s with compactionInFlight := true }, false)
  | .compactionEnd willRetry =>
    let s1 := { s with compactionInFlight := false }
    if willRetry then
      (resetForCompactionRetryS
        { s1 with pendingCompactionRetry := s1.pendingCompactionRetry + 1 }, false)
    else (s1, decide (s1.pendingCompactionRetry = 0))
  | .agentEnd =>
    let s1 := if cfg.hasOnBlockReply then flushBlockBuffer cfg s else s
    let s2 := { s1 with blockThinkingActive := false }
    let g := agentEndGate s2.pendingCompactionRetry s2.compactionInFlight
    ({ s2 with pendingCompactionRetry := g.1 }, g.2)

/-- Run a list of events through the handler, keeping the final state. -/
def runEvents (cfg : SubConfig) (s : SubState) (evs : List SubEvent) : SubState :=
  evs.foldl (fun st e => (step cfg st e).1) s

/-- The `isCompacting` accessor returned by `subscribeEmbeddedPiSession`
(line 1107). -/
def isCompactingS (s : SubState) : Bool :=
  s.compactionInFlight || decide (0 < s.pendingCompactionRetry)

/-- The `didSendViaMessagingTool` accessor (line 1113). -/
def didSendViaMessagingToolS (s : SubState) : Bool :=
  decide (s.messagingToolSentTexts ≠ [])

/-- A registered run's queue handle (`EmbeddedPiQueueHandle` in
`pi-embedded-runner.ts`), reduced to the two predicates read by
`queueEmbeddedPiMessage`: `session.isStreaming` and the subscription's
`isCompacting()`. -/
structure QueueHandle where
  streaming : Bool
  compacting : Bool
  deriving DecidableEq, Repr

/-- Lookup in `ACTIVE_EMBEDDED_RUNS` (a `Map<string, EmbeddedPiQueueHandle>`),
modelled as an association list keyed by session id. -/
def runsGet (runs : List (List Char × QueueHandle)) (id : List Char) : Option QueueHandle :=
  match runs.find? (fun p => decide (p.1 = id)) with
  | some p => some p.2
  | none => none

/-- Model of `queueEmbeddedPiMessage` of `pi-embedded-runner.ts` (lines 649-659):
returns `false` when no handle is registered for the session id, when the
registered run is not streaming, or when it is mid-compaction; otherwise
it forwards the text into the live turn (`handle.queueMessage`, i.e.
`session.steer`) and returns `true`.  The second component records the
text forwarded to `steer`, if any. -/
def queueEmbeddedPiMessage (runs : List (List Char × QueueHandle))
    (sessionId text : List Char) : Bool × Option (List Char) :=
  match runsGet runs sessionId with
  | none => (false, none)
  | some handle =>
    if !handle.streaming then (false, none)
    else if handle.compacting then (false, none)
    else (true, some text)

/-- State of the run registry together with the waiter map
(`ACTIVE_EMBEDDED_RUNS` keys and `EMBEDDED_RUN_WAITERS`): `active` is the
list of registered session ids, `waiters` the registered waiters as
(session id, waiter id) pairs, `nextWaiterId` a supply of fresh waiter
identities. -/
structure RunWaitState where
  active : List (List Char)
  waiters : List (List Char × Nat)
  nextWaiterId : Nat
  deriving DecidableEq, Repr

/-- Model of `waitForEmbeddedPiRunEnd` of `pi-embedded-runner.ts` (lines 678-706):
resolves `true` immediately (first component `some true`) when the session
id is empty or no run is registered for it; otherwise it registers a fresh
waiter and the promise stays pending (`none`).  The synchronous re-check of
`ACTIVE_EMBEDDED_RUNS` inside the promise executor (line 699) re-reads the
unchanged registry and can never fire, so it is not modelled separately.
The timeout duration (default 15000 ms, clamped to at least 100 ms) only
schedules the `waiterTimeout` transition below and carries no further
state. -/
def waitForEmbeddedPiRunEnd (s : RunWaitState) (sessionId : List Char) :
    Option Bool × RunWaitState :=
  if sessionId = [] ∨ ¬ s.active.contains sessionId then (some true, s)
  else
    (none,
      { s with
        waiters := s.waiters ++ [(sessionId, s.nextWaiterId)]
        nextWaiterId := s.nextWaiterId + 1 })

/-- Model of `notifyEmbeddedRunEnded` (lines 708-716): resolve every waiter of the
session id with `true`, clearing their timers, and drop them from the
waiter map.  The returned list holds the resolutions fired (waiter id,
resolved value). -/
def notifyEmbeddedRunEnded (s : RunWaitState) (sessionId : List Char) :
    RunWaitState × List (Nat × Bool) :=
  ({ s with waiters := s.waiters.filter (fun w => decide (w.1 ≠ sessionId)) },
    (s.waiters.filter (fun w => decide (w.1 = sessionId))).map (fun w => (w.2, true)))

/-- Run deregistration (the `finally` block of `runEmbeddedPiAgent`,
lines 1426-1429): remove the session id from the registry and notify its
waiters. -/
def deregisterEmbeddedRun (s : RunWaitState) (sessionId : List Char) :
    RunWaitState × List (Nat × Bool) :=
  notifyEmbeddedRunEnded
    { s with active := s.active.filter (fun i => decide (i ≠ sessionId)) } sessionId

/-- The timeout callback of one waiter (lines 688-695): if the waiter is
still registered, drop it and resolve it with `false`; a waiter already
resolved by `notifyEmbeddedRunEnded` is gone from the map and its timer was
cleared, so nothing fires. -/
def waiterTimeout (s : RunWaitState) (sessionId : List Char) (waiterId : Nat) :
    RunWaitState × Option (Nat × Bool) :=
  if (sessionId, waiterId) ∈ s.waiters then
    ({ s with waiters := s.waiters.filter (fun w => decide (w ≠ (sessionId, waiterId))) },
      some (waiterId, false))
  else (s, none)

/-- Failover classification reasons (`classifyFailoverReason` values). -/
inductive FailoverReason
  | auth
  | rateLimit
  | timeout
  | unknown
  deriving DecidableEq, Repr

/-- The payload of a `FailoverError` (`failover-error.ts`), as carried by
the `throw new FailoverError(message, {...})` at lines 1562-1568 of
`pi-embedded-runner.ts`. -/
structure FailoverPayload where
  reason : FailoverReason
  provider : List Char
  model : List Char
  profileId : Option (List Char)
  status : Option Nat
  deriving DecidableEq, Repr

/-- Construction of the `FailoverError` payload at the throw site: the
reason is the classified assistant failover reason, defaulting to
`unknown` (`assistantFailoverReason ?? "unknown"`), and provider, model,
profile id and status are passed through. -/
def mkFailoverPayload (assistantFailoverReason : Option FailoverReason)
    (provider modelId : List Char) (lastProfileId : Option (List Char))
    (status : Option Nat) : FailoverPayload :=
  { reason := assistantFailoverReason.getD .unknown
    provider := provider
    model := modelId
    profileId := lastProfileId
    status := status }

/-- Model of `shouldRotate` of `runEmbeddedPiAgent` (line 1520): rotate when a
non-aborted attempt failed with a failover-worthy assistant error, or when
the run timed out (timeouts are treated as possible rate limits). -/
def shouldRotate (aborted timedOut failoverFailure : Bool) : Bool :=
  (!aborted && failoverFailure) || timedOut

/-- Model of `advanceAuthProfile` (lines 1120-1136), modelled for a run without an
explicit profile pin (`explicitProfileId` undefined, under which its
rethrow branch is unreachable): starting after the current `profileIndex`,
return the first candidate index whose credential resolution succeeds, or
`none` when the candidates are exhausted. -/
def advanceAuthProfile (resolvesOk : Nat → Bool) (profileIndex count : Nat) : Option Nat :=
  (List.range' (profileIndex + 1) (count - (profileIndex + 1))).find? resolvesOk

/-- Outcome of the rotation tail of one attempt of `runEmbeddedPiAgent`. -/
inductive RunStep
  | continueLoop
  | raiseFailover (payload : FailoverPayload)
  | finishTurn
  deriving DecidableEq, Repr

/-- The rotation tail of `runEmbeddedPiAgent` (lines 1509-1570): when the
attempt warrants rotation, advance to the next usable auth profile and
retry; once rotation is exhausted, throw a typed `FailoverError` if a
model-level fallback is configured, and otherwise fall through to finish
the turn (the failure then surfaces as the turn's error reply). -/
def rotationTail (aborted timedOut failoverFailure fallbackConfigured : Bool)
    (resolvesOk : Nat → Bool) (profileIndex count : Nat)
    (payload : FailoverPayload) : RunStep :=
  if shouldRotate aborted timedOut failoverFailure then
    match advanceAuthProfile resolvesOk profileIndex count with
    | some _ => .continueLoop
    | none => if fallbackConfigured then .raiseFailover payload else .finishTurn
  else .finishTurn

/-- Reply items built after the rotation tail falls through (lines
1580-1590): an assistant error text becomes one error-flagged reply
payload. -/
def terminalReplyItems (errorText : Option (List Char)) : List (List Char × Bool) :=
  match errorText with
  | some e => [(e, true)]
  | none => []

/-- Modelled from the spec: the per-session command lane
(`clearCommandLane` / `getQueueSize` of `src/process/command-queue.ts` is
not part of the repository snapshot).  Per spec section 4.1 a lane is a
FIFO of queued tasks with at most one active task, and the interrupt
scenario of section 8 ("lane has 2 queued items + 1 active run; new
message clears all 3") counts the active task in the lane size. -/
structure LaneState where
  queued : List (List Char)
  active : Option (List Char)
  deriving DecidableEq, Repr

/-- Modelled from the spec: `getQueueSize` counts the lane's outstanding
work, queued tasks plus the active one. -/
def getQueueSize (lane : LaneState) : Nat :=
  lane.queued.length + (if lane.active.isSome then 1 else 0)

/-- The interrupt branch of `handleInboundMessage` in
`src/auto-reply/reply.ts` (lines 986-993) followed by the fresh start:
when the resolved queue mode is `interrupt` and the lane has outstanding
work, clear the session's queued lane work (`clearCommandLane`) and abort
the active run if one is registered (`abortEmbeddedPiRun`); processing
then proceeds as a fresh start whose single prompt is the new message
(`runReplyAgent` with `shouldSteer`/`shouldFollowup` both false - modelled
from the spec, `reply/agent-runner.ts` not being part of the snapshot).
Returns the resulting lane, whether an abort was signalled, and the number
of queued entries cleared. -/
def handleInterruptInbound (lane : LaneState) (newMsg : List Char) :
    LaneState × Bool × Nat :=
  let laneSize := getQueueSize lane
  let cleared := if 0 < laneSize then lane.queued.length else 0
  let abortedRun := decide (0 < laneSize) && lane.active.isSome
  ({ queued := [], active := some newMsg }, abortedRun, cleared)

/-! Theorems.  The helper lemmas below establish the behavior of the
string predicates and of the chunk-resolution cascade, followed by one
theorem (plus witness or counterexample) per claim. -/

theorem startsWithL_true_iff (l p : List Char) :
    startsWithL l p = true ↔ l.take p.length = p := by
  simp [startsWithL]

theorem startsWithL_includesL (l p : List Char) (h : startsWithL l p = true) :
    includesL l p = true := by
  rw [startsWithL_true_iff] at h
  simp only [includesL, List.any_eq_true]
  exact ⟨0, by simp, by simpa using h⟩

theorem includesL_length_le (l p : List Char) (h : includesL l p = true) :
    p.length ≤ l.length := by
  simp only [includesL, List.any_eq_true, List.mem_range] at h
  obtain ⟨i, _, hp⟩ := h
  simp only [decide_eq_true_eq] at hp
  have := congrArg List.length hp
  simp [List.length_take, List.length_drop] at this
  omega

theorem includesL_nil (buf : List Char) : includesL buf [] = true := by
  simp only [includesL, List.any_eq_true]
  exact ⟨0, by simp, by simp⟩

theorem resolveChunk_cascade (k : TextEvtKind) (content buf : List Char)
    (hk : k ≠ .textDelta) :
    resolveChunk k [] content buf =
      if content = [] then []
      else if startsWithL content buf then content.drop buf.length
      else if startsWithL buf content then []
      else if !(includesL buf content) then content
      else [] := by
  by_cases hc : content = [] <;>
    cases k <;> simp_all [resolveChunk]

theorem resolveChunk_extends (k : TextEvtKind) (content buf : List Char)
    (hk : k ≠ .textDelta) (h : startsWithL content buf = true) :
    buf ++ resolveChunk k [] content buf = content := by
  rw [resolveChunk_cascade k content buf hk]
  by_cases hc : content = []
  · subst hc
    have : buf = [] := by simpa [startsWithL] using h
    simp [this]
  · rw [if_neg hc, if_pos h]
    conv_rhs => rw [← List.take_append_drop buf.length content]
    rw [startsWithL_true_iff] at h
    rw [h]

theorem resolveChunk_contained (k : TextEvtKind) (content buf : List Char)
    (hk : k ≠ .textDelta) (h : includesL buf content = true) :
    resolveChunk k [] content buf = [] := by
  rw [resolveChunk_cascade k content buf hk]
  by_cases hc : content = []
  · simp [hc]
  · rw [if_neg hc]
    by_cases h1 : startsWithL content buf = true
    · rw [if_pos h1]
      rw [startsWithL_true_iff] at h1
      have hb : buf.length ≤ content.length := by
        have := congrArg List.length h1
        simp [List.length_take] at this
        omega
      have hcb : content.length ≤ buf.length := includesL_length_le buf content h
      exact List.drop_eq_nil_of_le (by omega)
    · rw [if_neg h1]
      by_cases h2 : startsWithL buf content = true
      · rw [if_pos h2]
      · simp [h2, h]

theorem resolveChunk_reset (k : TextEvtKind) (content buf : List Char)
    (hk : k ≠ .textDelta) (h1 : startsWithL content buf = false)
    (h2 : includesL buf content = false) :
    resolveChunk k [] content buf = content := by
  rw [resolveChunk_cascade k content buf hk]
  have hc : content ≠ [] := by
    intro he
    subst he
    rw [includesL_nil buf] at h2
    exact Bool.noConfusion h2
  have h3 : startsWithL buf content = false := by
    cases hx : startsWithL buf content
    · rfl
    · rw [startsWithL_includesL buf content hx] at h2
      exact Bool.noConfusion h2
  simp [hc, h1, h3, h2]

theorem emitBlockChunk_deltaBuffer (cfg : SubConfig) (s : SubState) (t : List Char) :
    (emitBlockChunk cfg s t).deltaBuffer = s.deltaBuffer := by
  unfold emitBlockChunk
  dsimp only
  split
  · rfl
  · split
    · rfl
    · split <;> rfl

theorem flushBlockBuffer_deltaBuffer (cfg : SubConfig) (s : SubState) :
    (flushBlockBuffer cfg s).deltaBuffer = s.deltaBuffer := by
  unfold flushBlockBuffer
  split
  · exact emitBlockChunk_deltaBuffer cfg s s.blockBuffer
  · rfl

theorem appendChunk_deltaBuffer (s : SubState) (chunk : List Char) :
    (appendChunk s chunk).deltaBuffer = s.deltaBuffer ++ chunk := by
  unfold appendChunk
  split
  · rfl
  · simp_all

theorem emitPartialReply_deltaBuffer (s1 : SubState) :
    (emitPartialReply s1).deltaBuffer = s1.deltaBuffer := by
  unfold emitPartialReply
  dsimp only
  split <;> rfl

theorem stepTextUpdate_deltaBuffer (cfg : SubConfig) (s : SubState) (k : TextEvtKind)
    (d c : List Char) :
    (stepTextUpdate cfg s k d c).deltaBuffer =
      s.deltaBuffer ++ resolveChunk k d c s.deltaBuffer := by
  unfold stepTextUpdate
  dsimp only
  split
  · rw [flushBlockBuffer_deltaBuffer, emitPartialReply_deltaBuffer, appendChunk_deltaBuffer]
  · rw [emitPartialReply_deltaBuffer, appendChunk_deltaBuffer]

theorem resolveChunk_rawDelta (k : TextEvtKind) (delta content buf : List Char)
    (hd : delta ≠ []) : resolveChunk k delta content buf = delta := by
  cases k <;> simp [resolveChunk, hd]

/-- Claim C1: for every assistant `text_start`/`text_end` event processed by
the reconciler, a nonempty raw delta is used as the new chunk (and on
`text_delta` the delta always is); otherwise the cumulative `content` is
compared against the accumulated `deltaBuffer`: if `content` extends the
buffer, the chunk is exactly the appended suffix (buffer plus chunk equals
`content`), if the buffer already contains `content` the chunk is empty,
and if neither contains the other as a prefix or substring, all of
`content` is the chunk.  In particular, replaying an already-delivered
cumulative `content` (a prefix of the buffer) on a later `text_end`
produces zero additional chunks and leaves the reconciler's delta buffer
unchanged. -/
theorem claim_C1_chunk_resolution (k : TextEvtKind) (delta content : List Char)
    (cfg : SubConfig) (s : SubState) :
    (resolveChunk .textDelta delta content s.deltaBuffer = delta) ∧
    (k ≠ .textDelta → delta ≠ [] →
      resolveChunk k delta content s.deltaBuffer = delta) ∧
    (k ≠ .textDelta → startsWithL content s.deltaBuffer = true →
      s.deltaBuffer ++ resolveChunk k [] content s.deltaBuffer = content) ∧
    (k ≠ .textDelta → includesL s.deltaBuffer content = true →
      resolveChunk k [] content s.deltaBuffer = []) ∧
    (k ≠ .textDelta → startsWithL content s.deltaBuffer = false →
      includesL s.deltaBuffer content = false →
      resolveChunk k [] content s.deltaBuffer = content) ∧
    (startsWithL s.deltaBuffer content = true →
      resolveChunk .textEnd [] content s.deltaBuffer = [] ∧
      (step cfg s (.textUpdate .textEnd [] content)).1.deltaBuffer = s.deltaBuffer) := by
  refine ⟨rfl, ?_, ?_, ?_, ?_, ?_⟩
  · intro hk hd
    exact resolveChunk_rawDelta k delta content s.deltaBuffer hd
  · intro hk h
    exact resolveChunk_extends k content s.deltaBuffer hk h
  · intro hk h
    exact resolveChunk_contained k content s.deltaBuffer hk h
  · intro hk h1 h2
    exact resolveChunk_reset k content s.deltaBuffer hk h1 h2
  · intro h
    have hin : includesL s.deltaBuffer content = true :=
      startsWithL_includesL s.deltaBuffer content h
    have hz : resolveChunk .textEnd [] content s.deltaBuffer = [] :=
      resolveChunk_contained .textEnd content s.deltaBuffer (by simp) hin
    refine ⟨hz, ?_⟩
    show (stepTextUpdate cfg s .textEnd [] content).deltaBuffer = s.deltaBuffer
    rw [stepTextUpdate_deltaBuffer, hz, List.append_nil]

/-- Witness for claim C1: with buffer `"Hi there"`, replaying the full
content `"Hi there"` (and the stale prefix `"Hi"`) on a late `text_end`
yields an empty chunk and an unchanged buffer. -/
theorem claim_C1_chunk_resolution_witness :
    startsWithL "Hi there".data "Hi".data = true ∧
    resolveChunk .textEnd [] "Hi".data "Hi there".data = [] ∧
    (step ⟨true, true⟩ { initSubState with deltaBuffer := "Hi there".data }
        (.textUpdate .textEnd [] "Hi".data)).1.deltaBuffer = "Hi there".data := by
  refine ⟨by decide, ?_⟩
  have h := (claim_C1_chunk_resolution .textEnd [] "Hi".data ⟨true, true⟩
    { initSubState with deltaBuffer := "Hi there".data }).2.2.2.2.2 (by decide)
  exact h

/-- Claim C3: for every registry state, session id and text,
`queueEmbeddedPiMessage` returns `false` exactly when no run is registered
for that id, or the registered run is not currently streaming, or the run
is mid-compaction; when it returns `true`, the text is forwarded into the
live turn (the steer effect), and when it returns `false` nothing is
forwarded. -/
theorem claim_C3_queueMessage (runs : List (List Char × QueueHandle)) (id text : List Char) :
    ((queueEmbeddedPiMessage runs id text).1 = false ↔
      runsGet runs id = none ∨
        ∃ h, runsGet runs id = some h ∧ (h.streaming = false ∨ h.compacting = true)) ∧
    ((queueEmbeddedPiMessage runs id text).1 = true →
      (queueEmbeddedPiMessage runs id text).2 = some text) ∧
    ((queueEmbeddedPiMessage runs id text).1 = false →
      (queueEmbeddedPiMessage runs id text).2 = none) := by
  cases hg : runsGet runs id with
  | none => simp [queueEmbeddedPiMessage, hg]
  | some h =>
    cases hs : h.streaming <;> cases hc : h.compacting <;>
      simp [queueEmbeddedPiMessage, hg, hs, hc]

/-- Witness for claim C3: a streaming, non-compacting run accepts the
steored text; a compacting one refuses it. -/
theorem claim_C3_queueMessage_witness :
    (queueEmbeddedPiMessage [("a".data, ⟨true, false⟩)] "a".data "hello".data).2 =
      some "hello".data ∧
    (queueEmbeddedPiMessage [("a".data, ⟨true, true⟩)] "a".data "hello".data).1 = false :=
  ⟨(claim_C3_queueMessage [("a".data, ⟨true, false⟩)] "a".data "hello".data).2.1
      (by decide),
    by decide⟩

/-- Claim C4: when an attempt fails in a way that warrants rotation
(`shouldRotate` true) and every remaining profile candidate fails to
resolve, rotation is exhausted (`advanceAuthProfile` yields nothing); then
with a model-level fallback configured the attempt raises the typed
`FailoverError` whose payload carries the classified reason (defaulted to
`unknown`), provider, model, profile id and status, while without a
fallback the attempt falls through and the failure surfaces as the turn's
terminal error reply. -/
theorem claim_C4_failover_exhaustion (aborted timedOut failoverFailure fallbackConfigured : Bool)
    (resolvesOk : Nat → Bool) (profileIndex count : Nat)
    (reason : Option FailoverReason) (provider modelId : List Char)
    (lastProfileId : Option (List Char)) (status : Option Nat)
    (hrot : shouldRotate aborted timedOut failoverFailure = true)
    (hexh : ∀ j, profileIndex < j → j < count → resolvesOk j = false) :
    advanceAuthProfile resolvesOk profileIndex count = none ∧
    (fallbackConfigured = true →
      rotationTail aborted timedOut failoverFailure fallbackConfigured
          resolvesOk profileIndex count
          (mkFailoverPayload reason provider modelId lastProfileId status) =
        .raiseFailover (mkFailoverPayload reason provider modelId lastProfileId status)) ∧
    (fallbackConfigured = false →
      rotationTail aborted timedOut failoverFailure fallbackConfigured
          resolvesOk profileIndex count
          (mkFailoverPayload reason provider modelId lastProfileId status) =
        .finishTurn) ∧
    (mkFailoverPayload reason provider modelId lastProfileId status).reason =
        reason.getD .unknown ∧
    (mkFailoverPayload reason provider modelId lastProfileId status).provider = provider ∧
    (mkFailoverPayload reason provider modelId lastProfileId status).model = modelId ∧
    (mkFailoverPayload reason provider modelId lastProfileId status).profileId =
        lastProfileId ∧
    (mkFailoverPayload reason provider modelId lastProfileId status).status = status ∧
    (∀ e, terminalReplyItems (some e) = [(e, true)]) := by
  have hnone : advanceAuthProfile resolvesOk profileIndex count = none := by
    rw [advanceAuthProfile, List.find?_eq_none]
    intro j hj
    rw [List.mem_range'] at hj
    obtain ⟨i, hi, rfl⟩ := hj
    rw [hexh (profileIndex + 1 + 1 * i) (by omega) (by omega)]
    exact Bool.false_ne_true
  refine ⟨hnone, ?_, ?_, rfl, rfl, rfl, rfl, rfl, fun e => rfl⟩
  · intro hf
    simp [rotationTail, hrot, hnone, hf]
  · intro hf
    simp [rotationTail, hrot, hnone, hf]

/-- Witness for claim C4: three profiles, the current one at index 0, both
remaining candidates unusable; with a fallback configured the attempt
raises failover carrying the rate-limit reason and status, without one it
finishes the turn. -/
theorem claim_C4_failover_exhaustion_witness :
    shouldRotate false false true = true ∧
    rotationTail false false true true (fun _ => false) 0 3
        (mkFailoverPayload (some .rateLimit) "anthropic".data "claude".data
          (some "p0".data) (some 429)) =
      .raiseFailover
        (mkFailoverPayload (some .rateLimit) "anthropic".data "claude".data
          (some "p0".data) (some 429)) ∧
    rotationTail false false true false (fun _ => false) 0 3
        (mkFailoverPayload (some .rateLimit) "anthropic".data "claude".data
          (some "p0".data) (some 429)) =
      .finishTurn :=
  ⟨by decide,
    (claim_C4_failover_exhaustion false false true true (fun _ => false) 0 3
        (some .rateLimit) "anthropic".data "claude".data (some "p0".data)
        (some 429) (by decide) (fun j _ _ => rfl)).2.1 rfl,
    (claim_C4_failover_exhaustion false false true false (fun _ => false) 0 3
        (some .rateLimit) "anthropic".data "claude".data (some "p0".data)
        (some 429) (by decide) (fun j _ _ => rfl)).2.2.1 rfl⟩

/-- Claim C6: when the resolved queue mode is `interrupt` and a new
inbound message arrives, the session's queued lane work is cleared and the
active run - if any - is aborted, and processing proceeds as a fresh start
with only the new message, for every prior lane state.  (Lane bookkeeping
is modelled from the spec, `process/command-queue.ts` not being part of
the snapshot.) -/
theorem claim_C6_interrupt (lane : LaneState) (newMsg : List Char) :
    (handleInterruptInbound lane newMsg).1 = { queued := [], active := some newMsg } ∧
    (handleInterruptInbound lane newMsg).2.1 = lane.active.isSome ∧
    (handleInterruptInbound lane newMsg).2.2 = lane.queued.length := by
  obtain ⟨q, a⟩ := lane
  refine ⟨rfl, ?_, ?_⟩
  · cases a <;> simp [handleInterruptInbound, getQueueSize]
  · cases a <;> cases q <;> simp [handleInterruptInbound, getQueueSize]

/-- Claim C9 (amended): `waitForEmbeddedPiRunEnd` resolves `true`
immediately when the session id is empty or no run is registered for it;
for a nonempty id with a registered run it registers a fresh waiter (many
may coexist); run deregistration resolves every waiter of that id with
`true` and removes them, leaving the id unregistered; a timeout on a
still-registered waiter resolves it with `false`, while a waiter already
removed fires nothing. -/
theorem claim_C9_waitForEnd_amended (s : RunWaitState) (id : List Char) :
    (id = [] ∨ s.active.contains id = false →
      waitForEmbeddedPiRunEnd s id = (some true, s)) ∧
    (id ≠ [] → s.active.contains id = true →
      (waitForEmbeddedPiRunEnd s id).1 = none ∧
      (waitForEmbeddedPiRunEnd s id).2.waiters = s.waiters ++ [(id, s.nextWaiterId)]) ∧
    ((deregisterEmbeddedRun s id).2 =
      (s.waiters.filter (fun w => decide (w.1 = id))).map (fun w => (w.2, true)) ∧
      (deregisterEmbeddedRun s id).1.waiters =
        s.waiters.filter (fun w => decide (w.1 ≠ id)) ∧
      id ∉ (deregisterEmbeddedRun s id).1.active) ∧
    (∀ wid, (id, wid) ∈ s.waiters → (waiterTimeout s id wid).2 = some (wid, false)) ∧
    (∀ wid, (id, wid) ∉ s.waiters → (waiterTimeout s id wid).2 = none) := by
  refine ⟨?_, ?_, ⟨rfl, rfl, ?_⟩, ?_, ?_⟩
  · intro h
    rcases h with h | h
    · simp [waitForEmbeddedPiRunEnd, h]
    · have h' : id ∉ s.active := by simpa using h
      simp [waitForEmbeddedPiRunEnd, h']
  · intro h1 h2
    have h' : id ∈ s.active := by simpa using h2
    simp [waitForEmbeddedPiRunEnd, h1, h']
  · simp [deregisterEmbeddedRun, notifyEmbeddedRunEnded, List.mem_filter]
  · intro wid hw
    simp [waiterTimeout, hw]
  · intro wid hw
    simp [waiterTimeout, hw]

/-- Witness for claim C9 (amended): a registered nonempty session id gets a
pending waiter; deregistration then resolves it with `true`. -/
theorem claim_C9_waitForEnd_amended_witness :
    ((waitForEmbeddedPiRunEnd (RunWaitState.mk ["a".data] [] 0) "a".data).1 = none ∧
      (waitForEmbeddedPiRunEnd (RunWaitState.mk ["a".data] [] 0) "a".data).2.waiters =
        [("a".data, 0)]) ∧
    (deregisterEmbeddedRun (RunWaitState.mk ["a".data] [("a".data, 0)] 1) "a".data).2 =
      [(0, true)] := by
  constructor
  · have h := (claim_C9_waitForEnd_amended (RunWaitState.mk ["a".data] [] 0) "a".data).2.1
      (by decide) (by decide)
    simpa using h
  · decide

/-- Counterexample for claim C9 as stated: the claim quantifies over every
session id, but for the empty session id with a run registered under it,
`waitForEmbeddedPiRunEnd` resolves `true` immediately (the `!sessionId`
short-circuit at line 682) and registers no waiter, instead of waiting for
the run to deregister. -/
theorem claim_C9_counterexample :
    (RunWaitState.mk [[]] [] 0).active.contains ([] : List Char) = true ∧
    (waitForEmbeddedPiRunEnd (RunWaitState.mk [[]] [] 0) []).1 = some true ∧
    (waitForEmbeddedPiRunEnd (RunWaitState.mk [[]] [] 0) []).2.waiters = [] := by
  decide

theorem agentEndGate_resolve (pending : Nat) (inFlight : Bool)
    (h : (agentEndGate pending inFlight).2 = true) :
    (agentEndGate pending inFlight).1 = 0 ∧ inFlight = false := by
  unfold agentEndGate at h ⊢
  split at h <;> split <;> simp_all

/-- Claim C5: a compaction-end event with `willRetry` resets every
per-message accumulation (the delta and block buffers, the block reasoning
flag, the accumulated assistant texts, the tool metadata maps, and the
messaging-tool tracking, both committed and pending) and increments the
pending-retry counter without resolving the gate; the
`waitForCompactionRetry` gate resolves only at a step after which the
pending-retry counter is zero and no compaction is in flight; and
`isCompacting()` returns true whenever either a compaction is in flight or
retries are pending. -/
theorem claim_C5_compaction (cfg : SubConfig) (s : SubState) :
    ((step cfg s (.compactionEnd true)).1.deltaBuffer = [] ∧
      (step cfg s (.compactionEnd true)).1.blockBuffer = [] ∧
      (step cfg s (.compactionEnd true)).1.blockThinkingActive = false ∧
      (step cfg s (.compactionEnd true)).1.assistantTexts = [] ∧
      (step cfg s (.compactionEnd true)).1.toolMetas = [] ∧
      (step cfg s (.compactionEnd true)).1.toolMetaById = [] ∧
      (step cfg s (.compactionEnd true)).1.messagingToolSentTexts = [] ∧
      (step cfg s (.compactionEnd true)).1.pendingMessagingTexts = [] ∧
      (step cfg s (.compactionEnd true)).1.lastStreamedAssistant = none ∧
      (step cfg s (.compactionEnd true)).1.lastBlockReplyText = none ∧
      (step cfg s (.compactionEnd true)).1.assistantTextBaseline = 0 ∧
      (step cfg s (.compactionEnd true)).1.pendingCompactionRetry =
        s.pendingCompactionRetry + 1 ∧
      (step cfg s (.compactionEnd true)).2 = false) ∧
    (∀ e, (step cfg s e).2 = true →
      (step cfg s e).1.pendingCompactionRetry = 0 ∧
      (step cfg s e).1.compactionInFlight = false) ∧
    (isCompactingS s = true ↔
      s.compactionInFlight = true ∨ 0 < s.pendingCompactionRetry) := by
  refine ⟨?_, ?_, ?_⟩
  · simp [step, resetForCompactionRetryS]
  · intro e he
    cases e with
    | messageStart => exact absurd he (by simp [step])
    | textUpdate k d c => exact absurd he (by simp [step])
    | messageEnd r => exact absurd he (by simp [step])
    | toolStart n i a c m => exact absurd he (by simp [step])
    | toolEnd n i err => exact absurd he (by simp [step])
    | compactionStart => exact absurd he (by simp [step])
    | compactionEnd willRetry =>
      cases willRetry with
      | true => exact absurd he (by simp [step])
      | false =>
        simp only [step] at he ⊢
        simp at he
        simp [he]
    | agentEnd =>
      simp only [step] at he ⊢
      exact agentEndGate_resolve _ _ he
  · simp [isCompactingS]

/-- Witness for claim C5: from one pending retry and no in-flight
compaction, the `agent_end` step resolves the gate with the counter at
zero. -/
theorem claim_C5_compaction_witness :
    (step ⟨true, true⟩ { initSubState with pendingCompactionRetry := 1 }
      .agentEnd).1.pendingCompactionRetry = 0 ∧
    (step ⟨true, true⟩ { initSubState with pendingCompactionRetry := 1 }
      .agentEnd).1.compactionInFlight = false :=
  (claim_C5_compaction ⟨true, true⟩
      { initSubState with pendingCompactionRetry := 1 }).2.1 .agentEnd (by decide)

theorem assocGet_remove (l : List (List Char × List Char)) (k : List Char) :
    assocGet (assocRemove l k) k = none := by
  induction l with
  | nil => rfl
  | cons hd tl ih =>
    by_cases h : hd.1 = k
    · simpa [assocRemove, List.filter, h] using ih
    · simpa [assocRemove, assocGet, List.filter, h, List.find?] using ih

/-- Claim C2: messaging-tool deduplication suppresses only against texts
committed at `tool_execution_end` with `isError` false.  A pending text
whose tool call ends with an error is removed from the pending map without
being committed, so it never suppresses a later identical block or final
reply; a text from a successfully completed call is committed, and a later
block reply (`emitBlockChunk`) or final answer (the `message_end` block
emission) exactly matching a committed text is suppressed, while a
non-matching clean chunk is emitted. -/
theorem claim_C2_messaging_dedup (cfg : SubConfig) (s : SubState)
    (name id t : List Char)
    (hpend : assocGet s.pendingMessagingTexts id = some t) :
    (assocGet (step cfg s (.toolEnd name id true)).1.pendingMessagingTexts id = none ∧
      (step cfg s (.toolEnd name id true)).1.messagingToolSentTexts =
        s.messagingToolSentTexts) ∧
    ((step cfg s (.toolEnd name id false)).1.messagingToolSentTexts =
      s.messagingToolSentTexts ++ [t]) ∧
    (∀ s2 : SubState, ∀ c : List Char,
      jsTrimEndL (stripScan s2.blockThinkingActive c).1 = c →
      (s2.messagingToolSentTexts.contains c = true →
        (emitBlockChunk cfg s2 c).assistantTexts = s2.assistantTexts ∧
        (emitBlockChunk cfg s2 c).blockReplyLog = s2.blockReplyLog) ∧
      (c ≠ [] → s2.messagingToolSentTexts.contains c = false →
        s2.lastBlockReplyText ≠ some c →
        (emitBlockChunk cfg s2 c).assistantTexts = s2.assistantTexts ++ [c])) ∧
    (∀ s2 : SubState, ∀ raw : List Char,
      s2.messagingToolSentTexts.contains (stripThinkingSegmentsL raw) = true →
      (step cfg s2 (.messageEnd raw)).1.blockReplyLog = s2.blockReplyLog) := by
  refine ⟨⟨?_, ?_⟩, ?_, ?_, ?_⟩
  · show assocGet (stepToolEnd s name id true).pendingMessagingTexts id = none
    simp only [stepToolEnd, hpend]
    exact assocGet_remove _ _
  · show (stepToolEnd s name id true).messagingToolSentTexts = s.messagingToolSentTexts
    simp [stepToolEnd, hpend]
  · show (stepToolEnd s name id false).messagingToolSentTexts =
      s.messagingToolSentTexts ++ [t]
    simp [stepToolEnd, hpend]
  · intro s2 c hclean
    constructor
    · intro hdup
      have hmem : c ∈ s2.messagingToolSentTexts := by simpa using hdup
      unfold emitBlockChunk
      dsimp only
      rw [hclean]
      by_cases hc : c = []
      · simp [hc]
      · rw [if_neg hc]
        by_cases hl : s2.lastBlockReplyText = some c
        · simp [hl]
        · simp [hl, isMessagingToolDuplicate, hmem]
    · intro hc hdup hl
      have hmem : c ∉ s2.messagingToolSentTexts := by simpa using hdup
      unfold emitBlockChunk
      dsimp only
      rw [hclean]
      simp [hc, hl, isMessagingToolDuplicate, hmem]
  · intro s2 raw hdup
    show (stepMessageEnd cfg s2 raw).blockReplyLog = s2.blockReplyLog
    unfold stepMessageEnd
    dsimp only
    split <;> split <;> (try split) <;> (try split) <;>
      simp_all [isMessagingToolDuplicate]

/-- Witness for claim C2: a pending `"Done!"` from the `telegram` tool is
discarded without commitment when the call errors, and committed when it
succeeds. -/
theorem claim_C2_messaging_dedup_witness :
    (assocGet (step ⟨true, true⟩
        { initSubState with pendingMessagingTexts := [("t1".data, "Done!".data)] }
        (.toolEnd "telegram".data "t1".data true)).1.pendingMessagingTexts
        "t1".data = none ∧
      (step ⟨true, true⟩
        { initSubState with pendingMessagingTexts := [("t1".data, "Done!".data)] }
        (.toolEnd "telegram".data "t1".data true)).1.messagingToolSentTexts = []) ∧
    (step ⟨true, true⟩
        { initSubState with pendingMessagingTexts := [("t1".data, "Done!".data)] }
        (.toolEnd "telegram".data "t1".data false)).1.messagingToolSentTexts =
      ["Done!".data] :=
  ⟨(claim_C2_messaging_dedup ⟨true, true⟩
      { initSubState with pendingMessagingTexts := [("t1".data, "Done!".data)] }
      "telegram".data "t1".data "Done!".data (by decide)).1,
    (claim_C2_messaging_dedup ⟨true, true⟩
      { initSubState with pendingMessagingTexts := [("t1".data, "Done!".data)] }
      "telegram".data "t1".data "Done!".data (by decide)).2.1⟩

theorem emitBlockChunk_log (cfg : SubConfig) (hcfg : cfg.hasOnBlockReply = true)
    (s : SubState) (t : List Char) :
    ((emitBlockChunk cfg s t).blockReplyLog = s.blockReplyLog ∧
      (emitBlockChunk cfg s t).lastBlockReplyText = s.lastBlockReplyText) ∨
    (∃ c, (emitBlockChunk cfg s t).blockReplyLog = s.blockReplyLog ++ [c] ∧
      s.lastBlockReplyText ≠ some c ∧
      (emitBlockChunk cfg s t).lastBlockReplyText = some c) := by
  unfold emitBlockChunk
  dsimp only
  split
  · exact Or.inl ⟨rfl, rfl⟩
  · split
    · exact Or.inl ⟨rfl, rfl⟩
    · split
      · exact Or.inl ⟨rfl, rfl⟩
      · rename_i hne _
        exact Or.inr ⟨_, by simp [hcfg], hne, rfl⟩

theorem emitBlockChunk_streamFields (cfg : SubConfig) (s : SubState) (t : List Char) :
    (emitBlockChunk cfg s t).assistantStreamLog = s.assistantStreamLog ∧
    (emitBlockChunk cfg s t).lastStreamedAssistant = s.lastStreamedAssistant := by
  unfold emitBlockChunk
  dsimp only
  split
  · exact ⟨rfl, rfl⟩
  · split
    · exact ⟨rfl, rfl⟩
    · split <;> exact ⟨rfl, rfl⟩

theorem flushBlockBuffer_log (cfg : SubConfig) (hcfg : cfg.hasOnBlockReply = true)
    (s : SubState) :
    ((flushBlockBuffer cfg s).blockReplyLog = s.blockReplyLog ∧
      (flushBlockBuffer cfg s).lastBlockReplyText = s.lastBlockReplyText) ∨
    (∃ c, (flushBlockBuffer cfg s).blockReplyLog = s.blockReplyLog ++ [c] ∧
      s.lastBlockReplyText ≠ some c ∧
      (flushBlockBuffer cfg s).lastBlockReplyText = some c) := by
  unfold flushBlockBuffer
  split
  · exact emitBlockChunk_log cfg hcfg s s.blockBuffer
  · exact Or.inl ⟨rfl, rfl⟩

theorem flushBlockBuffer_streamFields (cfg : SubConfig) (s : SubState) :
    (flushBlockBuffer cfg s).assistantStreamLog = s.assistantStreamLog ∧
    (flushBlockBuffer cfg s).lastStreamedAssistant = s.lastStreamedAssistant := by
  unfold flushBlockBuffer
  split
  · exact emitBlockChunk_streamFields cfg s s.blockBuffer
  · exact ⟨rfl, rfl⟩

theorem appendChunk_logFields (s : SubState) (chunk : List Char) :
    (appendChunk s chunk).blockReplyLog = s.blockReplyLog ∧
    (appendChunk s chunk).lastBlockReplyText = s.lastBlockReplyText ∧
    (appendChunk s chunk).assistantStreamLog = s.assistantStreamLog ∧
    (appendChunk s chunk).lastStreamedAssistant = s.lastStreamedAssistant := by
  unfold appendChunk
  split <;> exact ⟨rfl, rfl, rfl, rfl⟩

theorem emitPartialReply_blockFields (s1 : SubState) :
    (emitPartialReply s1).blockReplyLog = s1.blockReplyLog ∧
    (emitPartialReply s1).lastBlockReplyText = s1.lastBlockReplyText := by
  unfold emitPartialReply
  dsimp only
  split <;> exact ⟨rfl, rfl⟩

theorem emitPartialReply_stream (s1 : SubState) :
    ((emitPartialReply s1).assistantStreamLog = s1.assistantStreamLog ∧
      (emitPartialReply s1).lastStreamedAssistant = s1.lastStreamedAssistant) ∨
    (∃ c, (emitPartialReply s1).assistantStreamLog = s1.assistantStreamLog ++ [c] ∧
      s1.lastStreamedAssistant ≠ some c ∧
      (emitPartialReply s1).lastStreamedAssistant = some c) := by
  unfold emitPartialReply
  dsimp only
  split
  next hB => exact Or.inr ⟨_, rfl, hB.2, rfl⟩
  next hB => exact Or.inl ⟨rfl, rfl⟩

/-- Claim C7 (amended): each handler step emits at most one block reply
and at most one partial reply, and a step that emits a block reply always
emits one different from the immediately preceding block reply of the
message (the `lastBlockReplyText` anchor, which the emission then becomes),
and likewise a partial-reply emission always differs from the immediately
preceding one (`lastStreamedAssistant`).  Consecutive duplicates are thus
impossible within a message; duplicates separated by a different emission
are not prevented. -/
theorem claim_C7_amended (cfg : SubConfig) (s : SubState) (e : SubEvent)
    (hcfg : cfg.hasOnBlockReply = true) :
    ((step cfg s e).1.blockReplyLog = s.blockReplyLog ∨
      ∃ c, (step cfg s e).1.blockReplyLog = s.blockReplyLog ++ [c] ∧
        s.lastBlockReplyText ≠ some c ∧
        (step cfg s e).1.lastBlockReplyText = some c) ∧
    ((step cfg s e).1.assistantStreamLog = s.assistantStreamLog ∨
      ∃ c, (step cfg s e).1.assistantStreamLog = s.assistantStreamLog ++ [c] ∧
        s.lastStreamedAssistant ≠ some c ∧
        (step cfg s e).1.lastStreamedAssistant = some c) := by
  cases e with
  | messageStart => exact ⟨Or.inl rfl, Or.inl rfl⟩
  | compactionStart => exact ⟨Or.inl rfl, Or.inl rfl⟩
  | compactionEnd willRetry =>
    cases willRetry with
    | true => exact ⟨Or.inl rfl, Or.inl rfl⟩
    | false => exact ⟨Or.inl rfl, Or.inl rfl⟩
  | toolStart n i a c m =>
    simp only [step]
    unfold stepToolStart
    dsimp only
    constructor
    · left
      split <;> (try split) <;> (try split) <;> rfl
    · left
      split <;> (try split) <;> (try split) <;> rfl
  | toolEnd n i err =>
    simp only [step]
    unfold stepToolEnd
    dsimp only
    constructor
    · left
      split <;> (try split) <;> rfl
    · left
      split <;> (try split) <;> rfl
  | agentEnd =>
    simp only [step, hcfg, if_pos]
    constructor
    · rcases flushBlockBuffer_log cfg hcfg s with ⟨h1, h2⟩ | ⟨c, h1, h2, h3⟩
      · exact Or.inl h1
      · exact Or.inr ⟨c, h1, h2, h3⟩
    · exact Or.inl (flushBlockBuffer_streamFields cfg s).1
  | messageEnd raw =>
    simp only [step]
    unfold stepMessageEnd
    dsimp only
    constructor
    · split <;> split <;> (try split) <;> (try split) <;>
        first
          | exact Or.inl rfl
          | (rename_i hne _; exact Or.inr ⟨_, rfl, hne, rfl⟩)
    · left
      split <;> split <;> (try split) <;> (try split) <;> rfl
  | textUpdate k d c =>
    simp only [step]
    unfold stepTextUpdate
    dsimp only
    obtain ⟨ha1, ha2, ha3, ha4⟩ :=
      appendChunk_logFields s (resolveChunk k d c s.deltaBuffer)
    obtain ⟨hb1, hb2⟩ :=
      emitPartialReply_blockFields (appendChunk s (resolveChunk k d c s.deltaBuffer))
    constructor
    · split
      · rcases flushBlockBuffer_log cfg hcfg
            (emitPartialReply (appendChunk s (resolveChunk k d c s.deltaBuffer))) with
          ⟨h1, h2⟩ | ⟨ch, h1, h2, h3⟩
        · left
          rw [h1, hb1, ha1]
        · right
          refine ⟨ch, ?_, ?_, h3⟩
          · rw [h1, hb1, ha1]
          · rw [hb2, ha2] at h2
            exact h2
      · left
        rw [hb1, ha1]
    · rcases emitPartialReply_stream
          (appendChunk s (resolveChunk k d c s.deltaBuffer)) with
        ⟨h1, h2⟩ | ⟨ch, h1, h2, h3⟩
      · left
        split
        · rw [(flushBlockBuffer_streamFields cfg _).1, h1, ha3]
        · rw [h1, ha3]
      · right
        refine ⟨ch, ?_, ?_, ?_⟩
        · split
          · rw [(flushBlockBuffer_streamFields cfg _).1, h1, ha3]
          · rw [h1, ha3]
        · rw [ha4] at h2
          exact h2
        · split
          · rw [(flushBlockBuffer_streamFields cfg _).2, h3]
          · exact h3

/-- Witness for claim C7 (amended): the single-step property at a concrete
delta event from the initial state. -/
theorem claim_C7_amended_witness :
    ((step ⟨true, true⟩ initSubState
        (.textUpdate .textDelta "A".data [])).1.blockReplyLog =
          initSubState.blockReplyLog ∨
      ∃ c, (step ⟨true, true⟩ initSubState
          (.textUpdate .textDelta "A".data [])).1.blockReplyLog =
            initSubState.blockReplyLog ++ [c] ∧
        initSubState.lastBlockReplyText ≠ some c ∧
        (step ⟨true, true⟩ initSubState
          (.textUpdate .textDelta "A".data [])).1.lastBlockReplyText = some c) ∧
    ((step ⟨true, true⟩ initSubState
        (.textUpdate .textDelta "A".data [])).1.assistantStreamLog =
          initSubState.assistantStreamLog ∨
      ∃ c, (step ⟨true, true⟩ initSubState
          (.textUpdate .textDelta "A".data [])).1.assistantStreamLog =
            initSubState.assistantStreamLog ++ [c] ∧
        initSubState.lastStreamedAssistant ≠ some c ∧
        (step ⟨true, true⟩ initSubState
          (.textUpdate .textDelta "A".data [])).1.lastStreamedAssistant = some c) :=
  claim_C7_amended ⟨true, true⟩ initSubState (.textUpdate .textDelta "A".data []) rfl

/-- Counterexample for claim C7 as stated: within one assistant message
(one `message_start`, no `message_end`), the event sequence streaming the
blocks `"A"`, `"B"`, `"A"` emits the block reply text `"A"` twice, and the
partial-reply sequence emits the cleaned cumulative text `"ABA"` twice
(once before an unterminated `<think` fragment and once after the tag
completes and is stripped).  The dedup anchors only compare against the
immediately preceding emission, so identical cleaned text can be emitted
twice for the same message. -/
theorem claim_C7_counterexample :
    (runEvents ⟨true, true⟩ initSubState
      [.messageStart,
        .textUpdate .textDelta "A".data [],
        .textUpdate .textEnd [] "A".data,
        .textUpdate .textDelta "B".data [],
        .textUpdate .textEnd [] "AB".data,
        .textUpdate .textDelta "A".data [],
        .textUpdate .textEnd [] "ABA".data,
        .textUpdate .textDelta "<think".data [],
        .textUpdate .textDelta ">".data []]).blockReplyLog =
      ["A".data, "B".data, "A".data] ∧
    (runEvents ⟨true, true⟩ initSubState
      [.messageStart,
        .textUpdate .textDelta "A".data [],
        .textUpdate .textEnd [] "A".data,
        .textUpdate .textDelta "B".data [],
        .textUpdate .textEnd [] "AB".data,
        .textUpdate .textDelta "A".data [],
        .textUpdate .textEnd [] "ABA".data,
        .textUpdate .textDelta "<think".data [],
        .textUpdate .textDelta ">".data []]).assistantStreamLog =
      ["A".data, "AB".data, "ABA".data, "ABA<think".data, "ABA".data] := by
  decide

/-- Claim C8: reasoning segments delimited by inline think markers are
stripped from user-visible output even when the marker pair is split
across chunk boundaries.  For `"<think>hidden</think>visible"` delivered
as two chunks split anywhere inside the hidden region (after the complete
open marker, before the close marker), processing the first chunk yields
no visible text and leaves the inside-reasoning flag set; processing the
second chunk with that flag yields exactly `"visible"` and clears the
flag - so the visible output is `"visible"` and no part of `"hidden"`
leaks. -/
theorem claim_C8_think_across_chunks (i : Nat) (hi : i < 7) :
    stripBlockThinkingSegmentsL false ("<think>".data ++ "hidden".data.take i) =
      ([], true) ∧
    stripBlockThinkingSegmentsL true ("hidden".data.drop i ++ "</think>visible".data) =
      ("visible".data, false) := by
  interval_cases i <;> exact ⟨by decide, by decide⟩

/-- Witness for claim C8: the split `"<think>hid"` / `"den</think>visible"`. -/
theorem claim_C8_think_across_chunks_witness :
    stripBlockThinkingSegmentsL false ("<think>".data ++ "hidden".data.take 3) =
      ([], true) ∧
    stripBlockThinkingSegmentsL true ("hidden".data.drop 3 ++ "</think>visible".data) =
      ("visible".data, false) :=
  claim_C8_think_across_chunks 3 (by decide)

theorem resolveChunk_emptyBuf (k : TextEvtKind) (hk : k ≠ .textDelta) (C : List Char) :
    resolveChunk k [] C [] = C := by
  rw [resolveChunk_cascade k C [] hk]
  by_cases hC : C = []
  · simp [hC]
  · rw [if_neg hC, if_pos (by simp [startsWithL])]
    simp

theorem appendChunk_otherFields (s : SubState) (ch : List Char) :
    (appendChunk s ch).blockBuffer = s.blockBuffer ++ ch ∧
    (appendChunk s ch).assistantTexts = s.assistantTexts ∧
    (appendChunk s ch).blockThinkingActive = s.blockThinkingActive := by
  unfold appendChunk
  split
  · exact ⟨rfl, rfl, rfl⟩
  · simp_all

theorem emitPartialReply_otherFields (s1 : SubState) :
    (emitPartialReply s1).blockBuffer = s1.blockBuffer ∧
    (emitPartialReply s1).assistantTexts = s1.assistantTexts ∧
    (emitPartialReply s1).blockThinkingActive = s1.blockThinkingActive := by
  unfold emitPartialReply
  dsimp only
  split <;> exact ⟨rfl, rfl, rfl⟩

theorem emitBlockChunk_stale (cfg : SubConfig) (s : SubState) (c t : List Char)
    (hstrip : jsTrimEndL (stripScan s.blockThinkingActive c).1 = t)
    (hlast : s.lastBlockReplyText = some t) :
    (emitBlockChunk cfg s c).assistantTexts = s.assistantTexts ∧
    (emitBlockChunk cfg s c).blockReplyLog = s.blockReplyLog := by
  unfold emitBlockChunk
  dsimp only
  rw [hstrip]
  by_cases ht : t = []
  · simp [ht]
  · rw [if_neg ht, if_pos (by rw [hlast])]
    exact ⟨rfl, rfl⟩

theorem flushBlockBuffer_stale (cfg : SubConfig) (s2 : SubState) (t : List Char)
    (hstrip : jsTrimEndL (stripScan s2.blockThinkingActive s2.blockBuffer).1 = t)
    (hlast : s2.lastBlockReplyText = some t) :
    (flushBlockBuffer cfg s2).assistantTexts = s2.assistantTexts ∧
    (flushBlockBuffer cfg s2).blockReplyLog = s2.blockReplyLog := by
  unfold flushBlockBuffer
  split
  · exact emitBlockChunk_stale cfg s2 s2.blockBuffer t hstrip hlast
  · exact ⟨rfl, rfl⟩

/-- Claim C10: `message_end` clears the delta and block buffers but keeps
`lastBlockReplyText` (when the `text_end` break mode already drained the
block buffer, so its own emission branch is idle), while `message_start`
clears the buffers and `lastBlockReplyText`; consequently a late duplicate
`text_end` arriving after `message_end` and replaying the completed
message's full content - whose stripped, end-trimmed text is exactly the
retained last block reply - adds no new entry to `assistantTexts` and
emits no additional block reply. -/
theorem claim_C10_late_text_end (cfg : SubConfig) (s : SubState) (raw C t : List Char)
    (hbrk : cfg.blockBreakTextEnd = true) :
    (s.blockBuffer = [] →
      (step cfg s (.messageEnd raw)).1.deltaBuffer = [] ∧
      (step cfg s (.messageEnd raw)).1.blockBuffer = [] ∧
      (step cfg s (.messageEnd raw)).1.lastBlockReplyText = s.lastBlockReplyText) ∧
    ((step cfg s .messageStart).1.deltaBuffer = [] ∧
      (step cfg s .messageStart).1.blockBuffer = [] ∧
      (step cfg s .messageStart).1.lastBlockReplyText = none) ∧
    (s.deltaBuffer = [] → s.blockBuffer = [] → s.blockThinkingActive = false →
      s.lastBlockReplyText = some t →
      jsTrimEndL (stripScan false C).1 = t →
      (step cfg s (.textUpdate .textEnd [] C)).1.assistantTexts = s.assistantTexts ∧
      (step cfg s (.textUpdate .textEnd [] C)).1.blockReplyLog = s.blockReplyLog) := by
  refine ⟨?_, ⟨rfl, rfl, rfl⟩, ?_⟩
  · intro hbuf
    simp only [step]
    unfold stepMessageEnd
    dsimp only
    split <;> (rw [if_neg (by simp [hbrk, hbuf])]; exact ⟨rfl, rfl, rfl⟩)
  · intro hdelta hbuf hflag hlast hstrip
    simp only [step]
    unfold stepTextUpdate
    dsimp only
    rw [if_pos ⟨rfl, hbrk⟩, hdelta, resolveChunk_emptyBuf .textEnd (by simp) C]
    obtain ⟨ha1, ha2, ha3⟩ := appendChunk_otherFields s C
    obtain ⟨hb1, hb2, hb3⟩ := emitPartialReply_otherFields (appendChunk s C)
    obtain ⟨hA1, hA2, hA3, hA4⟩ := appendChunk_logFields s C
    obtain ⟨hB1, hB2⟩ := emitPartialReply_blockFields (appendChunk s C)
    have h2flag : (emitPartialReply (appendChunk s C)).blockThinkingActive = false := by
      rw [hb3, ha3, hflag]
    have h2buf : (emitPartialReply (appendChunk s C)).blockBuffer = C := by
      rw [hb1, ha1, hbuf]
      simp
    have h2last : (emitPartialReply (appendChunk s C)).lastBlockReplyText = some t := by
      rw [hB2, hA2, hlast]
    have hst := flushBlockBuffer_stale cfg (emitPartialReply (appendChunk s C)) t
      (by rw [h2flag, h2buf]; exact hstrip) h2last
    constructor
    · rw [hst.1, hb2, ha2]
    · rw [hst.2, hB1, hA1]

/-- Witness for claim C10: after the `"Hi there"` message completed (its
text emitted as the last block reply and the buffers drained), replaying
`text_end` with the full content `"Hi there"` leaves `assistantTexts` and
the emitted block replies unchanged. -/
theorem claim_C10_late_text_end_witness :
    (step ⟨true, true⟩
        { initSubState with
          lastBlockReplyText := some "Hi there".data
          assistantTexts := ["Hi there".data]
          blockReplyLog := ["Hi there".data] }
        (.textUpdate .textEnd [] "Hi there".data)).1.assistantTexts =
      ["Hi there".data] ∧
    (step ⟨true, true⟩
        { initSubState with
          lastBlockReplyText := some "Hi there".data
          assistantTexts := ["Hi there".data]
          blockReplyLog := ["Hi there".data] }
        (.textUpdate .textEnd [] "Hi there".data)).1.blockReplyLog =
      ["Hi there".data] :=
  (claim_C10_late_text_end ⟨true, true⟩
      { initSubState with
        lastBlockReplyText := some "Hi there".data
        assistantTexts := ["Hi there".data]
        blockReplyLog := ["Hi there".data] }
      [] "Hi there".data "Hi there".data rfl).2.2 rfl rfl rfl rfl (by decide)

end OpenClaw
